import Mathlib

/-!
# Provider registry, cache-aside lookup and fan-out search of the metadata engine

A shallow embedding of `engine/engine.go` and `engine/actor.go`.

* Go strings are Lean strings, handled through their list of runes.
* A Go pair `(value, error)` is a Lean pair whose second component is an
  `Option Error` (`none` is the nil error); a pointer that the code tests
  against nil is an `Option`.
* The database handle `e.db` and the network are explicit state: a `World`
  holds the rows of the actor table and the trace of every store access
  and every live provider call made so far.
* A Go panic is an explicit outcome (`Outcome.panicked`, or `none` where a
  function has nothing else to report).
* Declarations of packages outside the two engine files (the `model`
  package, `gfriends.Name`, `net/url`, the Unicode tables) are fields of
  `Env`.
* A provider method is a function of its arguments; the engine calls each
  at most once per lookup and once per search.
* The store is an ideal table: a query or an upsert does not fail for
  reasons of its own, and string comparison in a query is exact.
* The goroutines of `SearchActorAll` run under an explicit schedule, and
  every statement about the search holds for every schedule.
-/

namespace Javtube

/-! ## Data model -/

/-- Error values that the engine creates or passes through. -/
inductive Error where
  | ErrInvalidID
  | ErrInvalidURL
  | ErrIncompleteMetadata
  | ErrInfoNotFound
  | ErrRecordNotFound
  | actorProviderNotFound (arg : String)
  | movieProviderNotFound (arg : String)
  | other (msg : String)
deriving DecidableEq

/-- The two components of a `*url.URL` that the engine reads: `Hostname()` and `Path`. -/
structure URL where
  Hostname : String
  Path : String
deriving DecidableEq

/-- Modelled from the spec: `model.ActorInfo`, a persisted entity record. The pair
`(Provider, ID)` is its primary key; the other fields are provider-supplied payload. -/
structure ActorInfo where
  ID : String
  Name : String
  Provider : String
  Homepage : String
  Summary : String
  Images : List String
deriving DecidableEq

/-- Modelled from the spec: `model.ActorSearchResult`, the transient projection used by
keyword search, tagged with the name of the provider it came from. -/
structure ActorSearchResult where
  ID : String
  Name : String
  Provider : String
  Homepage : String
  Images : List String
deriving DecidableEq

/-- Declarations that the engine files use and that live outside them. -/
structure Env where
  /-- The constant `gfriends.Name`. -/
  gfriendsName : String
  /-- The function `url.Parse` of `net/url`. -/
  urlParse : String → Except Error URL
  /-- The table `unicode.ToUpper`, consulted for runes outside ASCII. -/
  unicodeToUpper : Char → Char
  /-- The method `(*model.ActorInfo).Valid` on a non-nil receiver. -/
  actorValid : ActorInfo → Bool
  /-- The method `(*model.ActorSearchResult).Valid` on a non-nil receiver. -/
  resultValid : ActorSearchResult → Bool
  /-- The method `(*model.ActorInfo).ToSearchResult`. -/
  toSearchResult : ActorInfo → ActorSearchResult

/-- The value pair returned by a fetch: a possibly nil record pointer and an error. -/
abbrev FetchResult := Option ActorInfo × Option Error

/-- The value pair returned by a keyword search; the results are non-nil pointers. -/
abbrev SearchResults := List ActorSearchResult × Option Error

/-- An actor provider: the methods of `javtube.ActorProvider` that the engine calls, and
the optional `javtube.ActorSearcher` capability (`none` when the type assertion fails).
`URL` is the non-nil result of the method `URL()`. -/
structure ActorProvider where
  Name : String
  URL : URL
  Priority : Int
  NormalizeID : String → String
  ParseIDFromURL : String → String × Option Error
  GetActorInfoByID : String → FetchResult
  GetActorInfoByURL : String → FetchResult
  SearchActor : Option (String → SearchResults)

/-- A movie provider: the methods of `javtube.MovieProvider` that the registry calls. -/
structure MovieProvider where
  Name : String
  URL : URL
  Priority : Int
  NormalizeID : String → String
  ParseIDFromURL : String → String × Option Error

/-! ## Strings -/

/-- One rune of `strings.ToUpper`: ASCII letters are shifted, other ASCII runes are kept,
and runes outside ASCII go through the Unicode table. -/
def upperRune (env : Env) (c : Char) : Char :=
  if c.toNat < 128 then
    (if 97 ≤ c.toNat ∧ c.toNat ≤ 122 then Char.ofNat (c.toNat - 32) else c)
  else env.unicodeToUpper c

/-- The function `strings.ToUpper`. -/
def ToUpper (env : Env) (s : String) : String :=
  String.mk (s.data.map (upperRune env))

/-- The function `strings.HasPrefix s pre`. -/
def HasPrefix (s pre : String) : Bool :=
  pre.data.isPrefixOf s.data

/-! ## Go maps -/

/-- A Go map as an association list with at most one entry per key. -/
abbrev GoMap (β : Type) := List (String × β)

/-- The lookup `m[k]` with its `ok` flag. -/
def GoMap.get {β : Type} (m : GoMap β) (k : String) : Option β :=
  match m with
  | [] => none
  | (k1, v) :: rest => if k1 = k then some v else GoMap.get rest k

/-- The assignment `m[k] = v`. -/
def GoMap.set {β : Type} (m : GoMap β) (k : String) (v : β) : GoMap β :=
  match m with
  | [] => [(k, v)]
  | (k1, v1) :: rest => if k1 = k then (k, v) :: rest else (k1, v1) :: GoMap.set rest k v

/-- The lookup `m[k]` of a map of slices: a missing key yields the nil slice. -/
def GoMap.getSlice {β : Type} (m : GoMap (List β)) (k : String) : List β :=
  (GoMap.get m k).getD []

/-! ## Engine and registry (`engine.go`) -/

/-- The registry part of `Engine`; the database handle is the `db` field of `World`. -/
structure Engine where
  actorProviders : GoMap ActorProvider
  movieProviders : GoMap MovieProvider
  actorHostProviders : GoMap (List ActorProvider)
  movieHostProviders : GoMap (List MovieProvider)

/-- The body of the closure passed to `RangeActorFactory`, for one registered factory
`name` whose call `factory()` yields `provider`. The call of `SetRequestTimeout` configures
the provider and leaves the registry as it is. -/
def registerActor (env : Env) (e : Engine) (name : String) (provider : ActorProvider) : Engine :=
  let host := provider.URL.Hostname
  { e with
    actorProviders := e.actorProviders.set (ToUpper env name) provider
    actorHostProviders :=
      e.actorHostProviders.set host (e.actorHostProviders.getSlice host ++ [provider]) }

/-- The body of the closure passed to `RangeMovieFactory`. -/
def registerMovie (env : Env) (e : Engine) (name : String) (provider : MovieProvider) : Engine :=
  let host := provider.URL.Hostname
  { e with
    movieProviders := e.movieProviders.set (ToUpper env name) provider
    movieHostProviders :=
      e.movieHostProviders.set host (e.movieHostProviders.getSlice host ++ [provider]) }

/-- The method `initActorProviders`; `factories` lists the registered factories in the order
in which `RangeActorFactory` visits them, each with the provider it constructs. -/
def Engine.initActorProviders (env : Env) (e : Engine)
    (factories : List (String × ActorProvider)) : Engine :=
  factories.foldl (fun acc nf => registerActor env acc nf.1 nf.2)
    { e with actorProviders := [], actorHostProviders := [] }

/-- The method `initMovieProviders`. -/
def Engine.initMovieProviders (env : Env) (e : Engine)
    (factories : List (String × MovieProvider)) : Engine :=
  factories.foldl (fun acc nf => registerMovie env acc nf.1 nf.2)
    { e with movieProviders := [], movieHostProviders := [] }

/-- The constructor `New`. -/
def New (env : Env) (actorFactories : List (String × ActorProvider))
    (movieFactories : List (String × MovieProvider)) : Engine :=
  let engine : Engine :=
    { actorProviders := [], movieProviders := [], actorHostProviders := [],
      movieHostProviders := [] }
  (engine.initActorProviders env actorFactories).initMovieProviders env movieFactories

/-- The method `IsActorProvider`. -/
def Engine.IsActorProvider (env : Env) (e : Engine) (name : String) : Bool :=
  (e.actorProviders.get (ToUpper env name)).isSome

/-- The method `GetActorProviderByURL`. -/
def Engine.GetActorProviderByURL (env : Env) (e : Engine) (rawURL : String) :
    Except Error ActorProvider :=
  match env.urlParse rawURL with
  | .error err => .error err
  | .ok u =>
    match (e.actorHostProviders.getSlice u.Hostname).find?
        (fun p => HasPrefix u.Path p.URL.Path) with
    | some p => .ok p
    | none => .error (.actorProviderNotFound rawURL)

/-- The method `GetActorProviderByName`. -/
def Engine.GetActorProviderByName (env : Env) (e : Engine) (name : String) :
    Except Error ActorProvider :=
  match e.actorProviders.get (ToUpper env name) with
  | none => .error (.actorProviderNotFound name)
  | some provider => .ok provider

/-- The method `MustGetActorProviderByName`; `none` is the panic. -/
def Engine.MustGetActorProviderByName (env : Env) (e : Engine) (name : String) :
    Option ActorProvider :=
  match e.GetActorProviderByName env name with
  | .error _ => none
  | .ok provider => some provider

/-- The method `IsMovieProvider`. -/
def Engine.IsMovieProvider (env : Env) (e : Engine) (name : String) : Bool :=
  (e.movieProviders.get (ToUpper env name)).isSome

/-- The method `GetMovieProviderByURL`. -/
def Engine.GetMovieProviderByURL (env : Env) (e : Engine) (rawURL : String) :
    Except Error MovieProvider :=
  match env.urlParse rawURL with
  | .error err => .error err
  | .ok u =>
    match (e.movieHostProviders.getSlice u.Hostname).find?
        (fun p => HasPrefix u.Path p.URL.Path) with
    | some p => .ok p
    | none => .error (.movieProviderNotFound rawURL)

/-- The method `GetMovieProviderByName`. -/
def Engine.GetMovieProviderByName (env : Env) (e : Engine) (name : String) :
    Except Error MovieProvider :=
  match e.movieProviders.get (ToUpper env name) with
  | none => .error (.movieProviderNotFound name)
  | some provider => .ok provider

/-- The method `MustGetMovieProviderByName`; `none` is the panic. -/
def Engine.MustGetMovieProviderByName (env : Env) (e : Engine) (name : String) :
    Option MovieProvider :=
  match e.GetMovieProviderByName env name with
  | .error _ => none
  | .ok provider => some provider

/-! ## Record store and world -/

/-- One observable step of the engine: a store access or a live provider call. -/
inductive Event where
  | dbFirstByID (provider id : String)
  | dbCreate (info : ActorInfo)
  | fetchByID (provider id : String)
  | fetchByURL (provider rawURL : String)
deriving DecidableEq

/-- The mutable surroundings of a lookup: the rows of the actor table behind `e.db`, and
the trace of store accesses and live provider calls made so far. -/
structure World where
  db : List ActorInfo
  trace : List Event
deriving DecidableEq

/-- The result of a call that may panic. -/
inductive Outcome where
  | ret (info : Option ActorInfo) (err : Option Error)
  | panicked
deriving DecidableEq

/-- The zero value `&model.ActorInfo{}`. -/
def ActorInfo.zero : ActorInfo :=
  { ID := "", Name := "", Provider := "", Homepage := "", Summary := "", Images := [] }

/-- Two records with the same primary key `(Provider, ID)`. -/
def sameKey (a b : ActorInfo) : Bool :=
  a.Provider = b.Provider && a.ID = b.ID

/-- The row that `ORDER BY id LIMIT 1` keeps when it has seen `best` and meets `r`. -/
def firstStep (best : Option ActorInfo) (r : ActorInfo) : Option ActorInfo :=
  match best with
  | none => some r
  | some b => if r.ID < b.ID then some r else some b

/-- The query `Where(cond).First(info)`: of the rows that satisfy the condition, the one that
comes first in the order of the prioritised primary key column `id`. -/
def First (cond : ActorInfo → Bool) (rows : List ActorInfo) : Option ActorInfo :=
  (rows.filter cond).foldl firstStep none

/-- The statement `Clauses(clause.OnConflict{UpdateAll: true}).Create(info)`: insert the row,
or on a primary key conflict overwrite every column of the existing row. -/
def Create (info : ActorInfo) (rows : List ActorInfo) : List ActorInfo :=
  if rows.any (sameKey info) then rows.map (fun r => if sameKey info r then info else r)
  else rows ++ [info]

/-! ## Cache-aside lookup (`actor.go`) -/

/-- The method `getActorInfoFromDB`: an exact match on provider name and id. -/
def Engine.getActorInfoFromDB (provider : ActorProvider) (id : String) (w : World) :
    (ActorInfo × Option Error) × World :=
  let w1 : World := { w with trace := w.trace ++ [Event.dbFirstByID provider.Name id] }
  match First (fun r => r.Provider = provider.Name && r.ID = id) w.db with
  | some row => ((row, none), w1)
  | none => ((ActorInfo.zero, some Error.ErrRecordNotFound), w1)

/-- The first deferred function of `getActorInfoWithCallback` (it runs last): the metadata
validation check on the named results. -/
def validationCheck (env : Env) : FetchResult → Outcome
  | (info, some err) => Outcome.ret info (some err)
  | (none, none) => Outcome.ret none (some Error.ErrIncompleteMetadata)
  | (some r, none) =>
    if env.actorValid r then Outcome.ret (some r) none
    else Outcome.ret (some r) (some Error.ErrIncompleteMetadata)

/-- The second deferred function of `getActorInfoWithCallback` (it runs first): the delayed
auto-save. It evaluates `err == nil && info.Valid()` without the nil test that the first
deferred function puts before its own call of `Valid`; the method reads the fields of its
receiver, so a nil `info` with a nil error dereferences nil. `none` is that panic. -/
def autoSave (env : Env) : FetchResult → World → Option World
  | (_, some _), w => some w
  | (none, none), _ => none
  | (some r, none), w =>
    if env.actorValid r then
      some { db := Create r w.db, trace := w.trace ++ [Event.dbCreate r] }
    else some w

/-- The method `getActorInfoWithCallback`. A callback runs the live fetch of a provider: it
reads and extends the trace and has no access to the store. -/
def Engine.getActorInfoWithCallback (env : Env) (provider : ActorProvider) (id : String)
    (lazy : Bool) (callback : List Event → FetchResult × List Event) (w : World) :
    Outcome × World :=
  if provider.Name = env.gfriendsName then
    (validationCheck env (provider.GetActorInfoByID id),
      { w with trace := w.trace ++ [Event.fetchByID provider.Name id] })
  else
    let cached : Option ActorInfo × World :=
      if lazy then
        let r := Engine.getActorInfoFromDB provider id w
        if r.1.2 = none ∧ env.actorValid r.1.1 = true then (some r.1.1, r.2) else (none, r.2)
      else (none, w)
    match cached with
    | (some info, w1) => (validationCheck env (some info, none), w1)
    | (none, w1) =>
      let res := callback w1.trace
      let w2 : World := { w1 with trace := res.2 }
      match autoSave env res.1 w2 with
      | none => (Outcome.panicked, w2)
      | some w3 => (validationCheck env res.1, w3)

/-- The closure `func() { return provider.GetActorInfoByID(id) }`. -/
def byIDCallback (provider : ActorProvider) (id : String) :
    List Event → FetchResult × List Event :=
  fun tr => (provider.GetActorInfoByID id, tr ++ [Event.fetchByID provider.Name id])

/-- The closure `func() { return provider.GetActorInfoByURL(rawURL) }`. -/
def byURLCallback (provider : ActorProvider) (rawURL : String) :
    List Event → FetchResult × List Event :=
  fun tr => (provider.GetActorInfoByURL rawURL, tr ++ [Event.fetchByURL provider.Name rawURL])

/-- The method `getActorInfoByProviderID`. -/
def Engine.getActorInfoByProviderID (env : Env) (provider : ActorProvider) (id : String)
    (lazy : Bool) (w : World) : Outcome × World :=
  let id := provider.NormalizeID id
  if id = "" then (Outcome.ret none (some Error.ErrInvalidID), w)
  else Engine.getActorInfoWithCallback env provider id lazy (byIDCallback provider id) w

/-- The method `GetActorInfoByProviderID`. -/
def Engine.GetActorInfoByProviderID (env : Env) (e : Engine) (name id : String)
    (lazy : Bool) (w : World) : Outcome × World :=
  match e.GetActorProviderByName env name with
  | .error err => (Outcome.ret none (some err), w)
  | .ok provider => Engine.getActorInfoByProviderID env provider id lazy w

/-- The method `getActorInfoByProviderURL`. -/
def Engine.getActorInfoByProviderURL (env : Env) (provider : ActorProvider) (rawURL : String)
    (lazy : Bool) (w : World) : Outcome × World :=
  match provider.ParseIDFromURL rawURL with
  | (_, some err) => (Outcome.ret none (some err), w)
  | (id, none) =>
    if id = "" then (Outcome.ret none (some Error.ErrInvalidURL), w)
    else
      Engine.getActorInfoWithCallback env provider id lazy (byURLCallback provider rawURL) w

/-- The method `GetActorInfoByURL`. -/
def Engine.GetActorInfoByURL (env : Env) (e : Engine) (rawURL : String)
    (lazy : Bool) (w : World) : Outcome × World :=
  match e.GetActorProviderByURL env rawURL with
  | .error err => (Outcome.ret none (some err), w)
  | .ok provider => Engine.getActorInfoByProviderURL env provider rawURL lazy w

/-! ## Fan-out search (`actor.go`) -/

/-- The method `searchActor`, a function of the rows of the store, which it only reads.
`none` is the panic of the unchecked type assertion in the `gfriends` branch. -/
def Engine.searchActor (env : Env) (db : List ActorInfo) (keyword : String)
    (provider : ActorProvider) (lazy : Bool) : Option SearchResults :=
  if provider.Name = env.gfriendsName then
    match provider.SearchActor with
    | none => none
    | some search => some (search keyword)
  else
    match provider.SearchActor with
    | some search =>
      let found : Option ActorInfo :=
        if lazy then
          First (fun r => r.Provider = provider.Name && (r.Name = keyword || r.ID = keyword)) db
        else none
      match found with
      | some info =>
        if env.actorValid info then some ([env.toSearchResult info], none)
        else some (search keyword)
      | none => some (search keyword)
    | none => some ([], some Error.ErrInfoNotFound)

/-- The method `SearchActor`; the outer `none` is a panic of `searchActor`. -/
def Engine.SearchActor (env : Env) (e : Engine) (db : List ActorInfo) (keyword name : String)
    (lazy : Bool) : Option SearchResults :=
  match e.GetActorProviderByName env name with
  | .error err => some ([], some err)
  | .ok provider => Engine.searchActor env db keyword provider lazy

/-- The state of one goroutine of `SearchActorAll`: about to call `searchActor`, or inside
the loop over the results that remain to be checked and appended. -/
inductive Goroutine where
  | start (provider : ActorProvider)
  | loop (rest : List ActorSearchResult)

/-- One step of a goroutine: the new state and what it appends to the shared slice under
the mutex. `none` is a panic. -/
def Goroutine.step (env : Env) (db : List ActorInfo) (keyword : String) :
    Goroutine → Option (Goroutine × List ActorSearchResult)
  | Goroutine.start p =>
    match Engine.searchActor env db keyword p true with
    | none => none
    | some (rs, none) => some (Goroutine.loop rs, [])
    | some (_, some _) => some (Goroutine.loop [], [])
  | Goroutine.loop [] => some (Goroutine.loop [], [])
  | Goroutine.loop (r :: rs) => some (Goroutine.loop rs, if env.resultValid r then [r] else [])

/-- Everything a goroutine still appends when it runs to its end without interruption. -/
def Goroutine.finish (env : Env) (db : List ActorInfo) (keyword : String) :
    Goroutine → Option (List ActorSearchResult)
  | Goroutine.start p =>
    match Engine.searchActor env db keyword p true with
    | none => none
    | some (rs, none) => some (rs.filter env.resultValid)
    | some (_, some _) => some []
  | Goroutine.loop rs => some (rs.filter env.resultValid)

/-- Advance the goroutine at index `i` by one step; an index past the end does nothing. -/
def stepAt (env : Env) (db : List ActorInfo) (keyword : String) :
    Nat → List Goroutine → Option (List Goroutine × List ActorSearchResult)
  | _, [] => some ([], [])
  | 0, t :: ts =>
    match t.step env db keyword with
    | none => none
    | some (t1, out) => some (t1 :: ts, out)
  | i + 1, t :: ts =>
    match stepAt env db keyword i ts with
    | none => none
    | some (ts1, out) => some (t :: ts1, out)

/-- The join `wg.Wait()`: every goroutine runs to its end, one after the other. -/
def drain (env : Env) (db : List ActorInfo) (keyword : String) :
    List Goroutine → List ActorSearchResult → Option (List ActorSearchResult)
  | [], results => some results
  | t :: ts, results =>
    match t.finish env db keyword with
    | none => none
    | some out => drain env db keyword ts (results ++ out)

/-- The fan-out under a schedule: each entry of `sched` names the goroutine that takes the
next step; when the schedule is used up the remaining work is joined. The value is the
shared slice `results` as it stands before the sort. -/
def collect (env : Env) (db : List ActorInfo) (keyword : String) :
    List Nat → List Goroutine → List ActorSearchResult → Option (List ActorSearchResult)
  | [], tasks, results => drain env db keyword tasks results
  | i :: sched, tasks, results =>
    match stepAt env db keyword i tasks with
    | none => none
    | some (tasks1, out) => collect env db keyword sched tasks1 (results ++ out)

/-- The inner loop of the insertion sort of `sort.SliceStable` on the reversed sorted
prefix: the new element moves left while `less` holds against its left neighbour. -/
def sink {α : Type} (less : α → α → Option Bool) (x : α) : List α → Option (List α)
  | [] => some [x]
  | y :: ys =>
    match less x y with
    | none => none
    | some true => (sink less x ys).map (fun l => y :: l)
    | some false => some (x :: y :: ys)

/-- The outer loop of the insertion sort: `rev` is the sorted prefix, reversed. -/
def insertionSort {α : Type} (less : α → α → Option Bool) : List α → List α → Option (List α)
  | rev, [] => some rev.reverse
  | rev, x :: xs =>
    match sink less x rev with
    | none => none
    | some rev1 => insertionSort less rev1 xs

/-- The function `sort.SliceStable` with a comparison that may panic, as a stable insertion
sort; `none` is a panic raised by `less`. -/
def SliceStable {α : Type} (less : α → α → Option Bool) (data : List α) : Option (List α) :=
  insertionSort less [] data

/-- The priority that the comparison reads for a result: `MustGetActorProviderByName` on
the provider tag, then `Priority()`. -/
def Engine.priorityOf (env : Env) (e : Engine) (r : ActorSearchResult) : Option Int :=
  (e.MustGetActorProviderByName env r.Provider).map (fun p => p.Priority)

/-- The comparison closure handed to `sort.SliceStable` by `SearchActorAll`. -/
def Engine.lessByPriority (env : Env) (e : Engine) (a b : ActorSearchResult) : Option Bool :=
  match e.priorityOf env a with
  | none => none
  | some pa =>
    match e.priorityOf env b with
    | none => none
    | some pb => some (decide (pa > pb))

/-- The shared slice of `SearchActorAll` after `wg.Wait()`, before the sort. -/
def Engine.collected (env : Env) (e : Engine) (db : List ActorInfo) (keyword : String)
    (sched : List Nat) : Option (List ActorSearchResult) :=
  collect env db keyword sched (e.actorProviders.map (fun kv => Goroutine.start kv.2)) []

/-- The method `SearchActorAll` under a goroutine schedule: the returned pair
`(results, err)`, or `none` for a panic. -/
def Engine.SearchActorAll (env : Env) (e : Engine) (db : List ActorInfo) (keyword : String)
    (sched : List Nat) : Option SearchResults :=
  match e.collected env db keyword sched with
  | none => none
  | some acc =>
    match SliceStable (e.lessByPriority env) acc with
    | none => none
    | some sorted => some (sorted, none)

/-! ## Notions used to state the properties -/

/-- The primary key constraint of the actor table: no two rows share `(Provider, ID)`. -/
def KeysUnique (rows : List ActorInfo) : Prop :=
  rows.Pairwise (fun a b => sameKey a b = false)

/-- What one provider contributes to a search: the valid results of its query when the
query returned a nil error, and nothing when it failed. -/
def validResultsOf (env : Env) (db : List ActorInfo) (keyword : String) (p : ActorProvider) :
    List ActorSearchResult :=
  match Engine.searchActor env db keyword p true with
  | some (rs, none) => rs.filter env.resultValid
  | _ => []

/-- The provider tag of `r` resolves, by `GetActorProviderByName`, to a provider whose
`Priority()` is `k`. -/
def hasPriority (env : Env) (e : Engine) (k : Int) (r : ActorSearchResult) : Bool :=
  match e.GetActorProviderByName env r.Provider with
  | .ok p => decide (p.Priority = k)
  | .error _ => false

/-- What a goroutine has yet to append. -/
def Goroutine.pending (env : Env) (db : List ActorInfo) (keyword : String) :
    Goroutine → List ActorSearchResult
  | Goroutine.start p => validResultsOf env db keyword p
  | Goroutine.loop rs => rs.filter env.resultValid

/-- A goroutine whose call of `searchActor`, if still ahead, does not panic. -/
def Goroutine.safe (env : Env) (db : List ActorInfo) (keyword : String) : Goroutine → Prop
  | Goroutine.start p => (Engine.searchActor env db keyword p true).isSome = true
  | Goroutine.loop _ => True

/-! ## Sample environment, providers and engines -/

/-- A validity predicate for examples: the four identifying fields are non-empty. -/
def sampleValid (r : ActorInfo) : Bool :=
  r.ID != "" && r.Name != "" && r.Provider != "" && r.Homepage != ""

/-- The matching validity predicate on search results. -/
def sampleResultValid (r : ActorSearchResult) : Bool :=
  r.ID != "" && r.Name != "" && r.Provider != "" && r.Homepage != ""

/-- A stand-in for `url.Parse` on plain `https` URLs: it rejects control characters, splits
`https://host/path` at the first slash after the host, and reads anything else as a path. -/
def sampleParse (raw : String) : Except Error URL :=
  if raw.data.any (fun c => decide (c.toNat < 32) || decide (c.toNat = 127)) then
    Except.error (Error.other "net/url: invalid control character in URL")
  else if "https://".data.isPrefixOf raw.data then
    Except.ok
      { Hostname := String.mk ((raw.data.drop 8).takeWhile (fun c => c != '/')),
        Path := String.mk ((raw.data.drop 8).dropWhile (fun c => c != '/')) }
  else Except.ok { Hostname := "", Path := raw }

/-- An environment for examples. -/
def sampleEnv : Env :=
  { gfriendsName := "GFriends",
    urlParse := sampleParse,
    unicodeToUpper := fun c => c,
    actorValid := sampleValid,
    resultValid := sampleResultValid,
    toSearchResult := fun a =>
      { ID := a.ID, Name := a.Name, Provider := a.Provider, Homepage := a.Homepage,
        Images := a.Images } }

/-- A complete record of provider `provider` under `id`. -/
def sampleRecord (provider id : String) : ActorInfo :=
  { ID := id, Name := "Alice", Provider := provider, Homepage := "https://a.example/actors",
    Summary := "", Images := [] }

/-- A search result tagged `provider`; it is valid when `homepage` is non-empty. -/
def sampleResult (provider id homepage : String) : ActorSearchResult :=
  { ID := id, Name := "Alice", Provider := provider, Homepage := homepage, Images := [] }

/-- Provider `A`: priority 10, fetches complete records keyed by the requested id, and
returns one invalid result between two valid ones on search. -/
def provA : ActorProvider :=
  { Name := "A",
    URL := { Hostname := "a.example", Path := "/actors" },
    Priority := 10,
    NormalizeID := fun s => String.mk (s.data.filter (fun c => c != ' ')),
    ParseIDFromURL := fun raw =>
      if raw = "https://a.example/actors/broken" then ("", some (Error.other "broken url"))
      else if raw = "https://a.example/actors/" then ("", none)
      else (String.mk (raw.data.drop 26), none),
    GetActorInfoByID := fun id => (some (sampleRecord "A" id), none),
    GetActorInfoByURL := fun raw => (some (sampleRecord "A" (String.mk (raw.data.drop 26))), none),
    SearchActor := some (fun _ =>
      ([sampleResult "A" "a1" "h", sampleResult "A" "a2" "", sampleResult "A" "a3" "h"], none)) }

/-- Provider `A2`: a second provider on the host of `A`, under another path. -/
def provA2 : ActorProvider :=
  { provA with
    Name := "A2", URL := { Hostname := "a.example", Path := "/stars" }, SearchActor := none }

/-- Provider `B`: priority 5; its fetch returns a record without a name. -/
def provB : ActorProvider :=
  { Name := "B",
    URL := { Hostname := "b.example", Path := "/" },
    Priority := 5,
    NormalizeID := fun s => s,
    ParseIDFromURL := fun raw => (raw, none),
    GetActorInfoByID := fun id => (some { sampleRecord "B" id with Name := "" }, none),
    GetActorInfoByURL := fun _ => (none, some Error.ErrInfoNotFound),
    SearchActor := some (fun _ => ([sampleResult "B" "b1" "h", sampleResult "B" "b2" "h"], none)) }

/-- Provider `C`, registered as `foo`: no search capability. -/
def provC : ActorProvider :=
  { provB with Name := "C", URL := { Hostname := "c.example", Path := "/" }, SearchActor := none }

/-- Provider `D`: its search fails, with results alongside the error. -/
def provD : ActorProvider :=
  { provB with
    Name := "D", URL := { Hostname := "d.example", Path := "/" },
    SearchActor := some (fun _ => ([sampleResult "D" "d1" "h"], some (Error.other "timeout"))) }

/-- Provider `U`: like the `MGStage` provider it files a record under the upper-cased id. -/
def provU : ActorProvider :=
  { provB with
    Name := "U", URL := { Hostname := "u.example", Path := "/" },
    GetActorInfoByID := fun id => (some (sampleRecord "U" (ToUpper sampleEnv id)), none) }

/-- Provider `N`: its fetch returns a nil record and a nil error. -/
def provN : ActorProvider :=
  { provB with
    Name := "N", URL := { Hostname := "n.example", Path := "/" },
    GetActorInfoByID := fun _ => (none, none) }

/-- Provider `Z`: its search results carry a tag under which no provider is registered. -/
def provZ : ActorProvider :=
  { provB with
    Name := "Z", URL := { Hostname := "z.example", Path := "/" },
    SearchActor := some (fun _ => ([sampleResult "Y" "y1" "h", sampleResult "Y" "y2" "h"], none)) }

/-- The bypass provider. -/
def provG : ActorProvider :=
  { Name := "GFriends",
    URL := { Hostname := "g.example", Path := "/" },
    Priority := 7,
    NormalizeID := fun s => s,
    ParseIDFromURL := fun raw => (raw, none),
    GetActorInfoByID := fun id => (some (sampleRecord "GFriends" id), none),
    GetActorInfoByURL := fun _ => (none, some Error.ErrInfoNotFound),
    SearchActor := some (fun _ => ([sampleResult "GFriends" "g1" "h"], none)) }

/-- A bypass provider whose fetch returns a nil record and a nil error. -/
def provGN : ActorProvider :=
  { provG with GetActorInfoByID := fun _ => (none, none) }

/-- A provider with the bypass name and without the search capability. -/
def provG0 : ActorProvider :=
  { provG with SearchActor := none }

/-- A movie provider for examples. -/
def movieM : MovieProvider :=
  { Name := "M", URL := { Hostname := "m.example", Path := "/movies" }, Priority := 3,
    NormalizeID := fun s => s, ParseIDFromURL := fun raw => (raw, none) }

/-- An engine with the providers `B`, `A`, `A2`, `C`, `D` and the bypass provider, and one
movie provider. -/
def sampleEngine : Engine :=
  New sampleEnv
    [("b", provB), ("a", provA), ("a2", provA2), ("foo", provC), ("d", provD),
      ("GFriends", provG)]
    [("m", movieM)]

/-- An engine whose provider `Z` tags its results with an unregistered name. -/
def strayEngine : Engine :=
  New sampleEnv [("z", provZ)] []

/-- An engine whose provider of the bypass name lacks the search capability. -/
def mutedEngine : Engine :=
  New sampleEnv [("GFriends", provG0)] []

/-- A world whose store holds the record of provider `A` under `x1`. -/
def sampleWorld : World :=
  { db := [sampleRecord "A" "x0", sampleRecord "A" "x1"], trace := [] }

/-- A world whose store holds an older record of the bypass provider under `x1`. -/
def staleWorld : World :=
  { db := [{ sampleRecord "GFriends" "x1" with Summary := "stale" }], trace := [] }

/-- The empty world. -/
def emptyWorld : World :=
  { db := [], trace := [] }

/-- The list that the sample engine returns under the schedule of the examples: the results
of `A` (priority 10), then of the bypass provider (priority 7), then of `B` (priority 5). -/
def sampleSorted : List ActorSearchResult :=
  [sampleResult "A" "a1" "h", sampleResult "A" "a3" "h", sampleResult "GFriends" "g1" "h",
    sampleResult "B" "b1" "h", sampleResult "B" "b2" "h"]

/-- The shared slice that the sample engine collects under the schedule of the examples. -/
def sampleCollected : List ActorSearchResult :=
  [sampleResult "A" "a1" "h", sampleResult "GFriends" "g1" "h", sampleResult "B" "b1" "h",
    sampleResult "B" "b2" "h", sampleResult "A" "a3" "h"]

/-! ## Go maps and the registry -/

theorem GoMap.get_set {β : Type} (m : GoMap β) (k k2 : String) (v : β) :
    (m.set k v).get k2 = if k = k2 then some v else m.get k2 := by
  induction m with
  | nil => simp [GoMap.set, GoMap.get]
  | cons hd tl ih =>
    obtain ⟨k1, v1⟩ := hd
    by_cases h1 : k1 = k
    · subst h1
      by_cases h2 : k1 = k2 <;> simp [GoMap.set, GoMap.get, h2]
    · by_cases h2 : k1 = k2
      · subst h2
        have h3 : ¬ k = k1 := fun h => h1 h.symm
        simp [GoMap.set, GoMap.get, h1, h3]
      · simp [GoMap.set, GoMap.get, h1, h2, ih]

/-- Folding host registrations appends, per host, the providers of that host in order. -/
theorem hostFold_getSlice {β : Type} (host : β → String) (l : List β) (m : GoMap (List β))
    (h : String) :
    GoMap.getSlice (l.foldl (fun acc p => GoMap.set acc (host p) (GoMap.getSlice acc (host p) ++ [p])) m) h
      = m.getSlice h ++ l.filter (fun p => decide (host p = h)) := by
  induction l generalizing m with
  | nil => simp
  | cons p tl ih =>
    rw [List.foldl_cons, ih]
    by_cases hp : host p = h
    · simp [GoMap.getSlice, GoMap.get_set, hp, List.filter_cons]
    · simp [GoMap.getSlice, GoMap.get_set, hp, List.filter_cons]

theorem find?_filter_and {β : Type} (p q : β → Bool) (l : List β) :
    (l.filter p).find? q = l.find? (fun x => p x && q x) := by
  induction l with
  | nil => rfl
  | cons hd tl ih =>
    by_cases hp : p hd = true
    · by_cases hq : q hd = true
      · simp [List.filter_cons, List.find?_cons, hp, hq]
      · simp [List.filter_cons, List.find?_cons, hp, hq, ih]
    · simp [List.filter_cons, List.find?_cons, hp, ih]

theorem foldl_registerActor_hosts (env : Env) (l : List (String × ActorProvider)) (e : Engine) :
    (l.foldl (fun acc nf => registerActor env acc nf.1 nf.2) e).actorHostProviders
      = (l.map Prod.snd).foldl
          (fun acc p => GoMap.set acc p.URL.Hostname (GoMap.getSlice acc p.URL.Hostname ++ [p]))
          e.actorHostProviders := by
  induction l generalizing e with
  | nil => rfl
  | cons hd tl ih => rw [List.foldl_cons, ih, List.map_cons, List.foldl_cons]; rfl

theorem foldl_registerMovie_hosts (env : Env) (l : List (String × MovieProvider)) (e : Engine) :
    (l.foldl (fun acc nf => registerMovie env acc nf.1 nf.2) e).movieHostProviders
      = (l.map Prod.snd).foldl
          (fun acc p => GoMap.set acc p.URL.Hostname (GoMap.getSlice acc p.URL.Hostname ++ [p]))
          e.movieHostProviders := by
  induction l generalizing e with
  | nil => rfl
  | cons hd tl ih => rw [List.foldl_cons, ih, List.map_cons, List.foldl_cons]; rfl

theorem foldl_registerMovie_actor (env : Env) (l : List (String × MovieProvider)) (e : Engine) :
    (l.foldl (fun acc nf => registerMovie env acc nf.1 nf.2) e).actorProviders = e.actorProviders
    ∧ (l.foldl (fun acc nf => registerMovie env acc nf.1 nf.2) e).actorHostProviders
        = e.actorHostProviders := by
  induction l generalizing e with
  | nil => exact ⟨rfl, rfl⟩
  | cons hd tl ih => rw [List.foldl_cons]; exact ih _

/-- The host bucket of a new engine lists the providers of that host in registration order. -/
theorem New_actorHostProviders (env : Env) (af : List (String × ActorProvider))
    (mf : List (String × MovieProvider)) (h : String) :
    (New env af mf).actorHostProviders.getSlice h
      = (af.map Prod.snd).filter (fun p => decide (p.URL.Hostname = h)) := by
  unfold New Engine.initMovieProviders Engine.initActorProviders
  simp only []
  rw [(foldl_registerMovie_actor env mf _).2, foldl_registerActor_hosts, hostFold_getSlice]
  simp [GoMap.getSlice, GoMap.get]

theorem New_movieHostProviders (env : Env) (af : List (String × ActorProvider))
    (mf : List (String × MovieProvider)) (h : String) :
    (New env af mf).movieHostProviders.getSlice h
      = (mf.map Prod.snd).filter (fun p => decide (p.URL.Hostname = h)) := by
  unfold New Engine.initMovieProviders Engine.initActorProviders
  simp only []
  rw [foldl_registerMovie_hosts, hostFold_getSlice]
  simp [GoMap.getSlice, GoMap.get]

/-- C7: for every URL that `url.Parse` accepts, `GetActorProviderByURL` and
`GetMovieProviderByURL` return the first provider, in registration order, whose canonical
URL has the hostname of the URL and a path that is a prefix of the path of the URL; when
there is none, in particular when providers are registered for the hostname and no
canonical path is a prefix, they fail with the provider-not-found error. -/
theorem C7_resolve_by_url (env : Env) (af : List (String × ActorProvider))
    (mf : List (String × MovieProvider)) (rawURL : String) (u : URL)
    (hparse : env.urlParse rawURL = Except.ok u) :
    (New env af mf).GetActorProviderByURL env rawURL
        = (match (af.map Prod.snd).find?
              (fun p => decide (p.URL.Hostname = u.Hostname) && HasPrefix u.Path p.URL.Path) with
           | some p => Except.ok p
           | none => Except.error (Error.actorProviderNotFound rawURL))
    ∧ (New env af mf).GetMovieProviderByURL env rawURL
        = (match (mf.map Prod.snd).find?
              (fun p => decide (p.URL.Hostname = u.Hostname) && HasPrefix u.Path p.URL.Path) with
           | some p => Except.ok p
           | none => Except.error (Error.movieProviderNotFound rawURL))
    ∧ ((∀ nf ∈ af, nf.2.URL.Hostname = u.Hostname → HasPrefix u.Path nf.2.URL.Path = false) →
        (New env af mf).GetActorProviderByURL env rawURL
          = Except.error (Error.actorProviderNotFound rawURL))
    ∧ ((∀ nf ∈ mf, nf.2.URL.Hostname = u.Hostname → HasPrefix u.Path nf.2.URL.Path = false) →
        (New env af mf).GetMovieProviderByURL env rawURL
          = Except.error (Error.movieProviderNotFound rawURL)) := by
  have hA : (New env af mf).GetActorProviderByURL env rawURL
        = (match (af.map Prod.snd).find?
              (fun p => decide (p.URL.Hostname = u.Hostname) && HasPrefix u.Path p.URL.Path) with
           | some p => Except.ok p
           | none => Except.error (Error.actorProviderNotFound rawURL)) := by
    unfold Engine.GetActorProviderByURL
    rw [hparse]
    simp only []
    rw [New_actorHostProviders, find?_filter_and]
  have hM : (New env af mf).GetMovieProviderByURL env rawURL
        = (match (mf.map Prod.snd).find?
              (fun p => decide (p.URL.Hostname = u.Hostname) && HasPrefix u.Path p.URL.Path) with
           | some p => Except.ok p
           | none => Except.error (Error.movieProviderNotFound rawURL)) := by
    unfold Engine.GetMovieProviderByURL
    rw [hparse]
    simp only []
    rw [New_movieHostProviders, find?_filter_and]
  refine ⟨hA, hM, ?_, ?_⟩
  · intro hno
    rw [hA]
    have : (af.map Prod.snd).find?
        (fun p => decide (p.URL.Hostname = u.Hostname) && HasPrefix u.Path p.URL.Path) = none := by
      rw [List.find?_eq_none]
      intro p hp
      obtain ⟨nf, hnf, rfl⟩ := List.mem_map.1 hp
      by_cases hh : nf.2.URL.Hostname = u.Hostname
      · simp [hh, hno nf hnf hh]
      · simp [hh]
    rw [this]
  · intro hno
    rw [hM]
    have : (mf.map Prod.snd).find?
        (fun p => decide (p.URL.Hostname = u.Hostname) && HasPrefix u.Path p.URL.Path) = none := by
      rw [List.find?_eq_none]
      intro p hp
      obtain ⟨nf, hnf, rfl⟩ := List.mem_map.1 hp
      by_cases hh : nf.2.URL.Hostname = u.Hostname
      · simp [hh, hno nf hnf hh]
      · simp [hh]
    rw [this]

theorem foldl_firstStep_all_eq (r : ActorInfo) (l : List ActorInfo) (h : ∀ y ∈ l, y = r) :
    l.foldl firstStep (some r) = some r := by
  induction l with
  | nil => rfl
  | cons hd tl ih =>
    have hhd : hd = r := h hd (List.mem_cons_self _ _)
    subst hhd
    rw [List.foldl_cons]
    have : firstStep (some hd) hd = some hd := by
      simp [firstStep]
    rw [this]
    exact ih (fun y hy => h y (List.mem_cons_of_mem _ hy))

theorem First_of_all_eq (cond : ActorInfo → Bool) (rows : List ActorInfo) (r : ActorInfo)
    (hall : ∀ y ∈ rows.filter cond, y = r) (hne : rows.filter cond ≠ []) :
    First cond rows = some r := by
  unfold First
  cases hf : rows.filter cond with
  | nil => exact absurd hf hne
  | cons hd tl =>
    rw [hf] at hall
    have hhd : hd = r := hall hd (List.mem_cons_self _ _)
    subst hhd
    rw [List.foldl_cons]
    exact foldl_firstStep_all_eq hd tl (fun y hy => hall y (List.mem_cons_of_mem _ hy))

theorem foldl_firstStep_mem (l : List ActorInfo) (init : Option ActorInfo) (x : ActorInfo)
    (h : l.foldl firstStep init = some x) : init = some x ∨ x ∈ l := by
  induction l generalizing init with
  | nil => left; simpa using h
  | cons hd tl ih =>
    rw [List.foldl_cons] at h
    rcases ih _ h with h1 | h1
    · cases init with
      | none =>
        simp only [firstStep, Option.some.injEq] at h1
        right; rw [← h1]; exact List.mem_cons_self _ _
      | some b =>
        simp only [firstStep] at h1
        split at h1
        · simp only [Option.some.injEq] at h1
          right; rw [← h1]; exact List.mem_cons_self _ _
        · left; exact h1
    · right; exact List.mem_cons_of_mem _ h1

theorem First_mem (cond : ActorInfo → Bool) (rows : List ActorInfo) (x : ActorInfo)
    (h : First cond rows = some x) : x ∈ rows ∧ cond x = true := by
  unfold First at h
  rcases foldl_firstStep_mem _ _ _ h with h1 | h1
  · cases h1
  · exact List.mem_filter.1 h1

theorem sameKey_iff (a b : ActorInfo) :
    sameKey a b = true ↔ a.Provider = b.Provider ∧ a.ID = b.ID := by
  simp [sameKey]

theorem filter_key_of_unique (rows : List ActorInfo) (r : ActorInfo) (hu : KeysUnique rows)
    (hr : r ∈ rows) :
    ∀ y ∈ rows.filter (fun x => decide (x.Provider = r.Provider) && decide (x.ID = r.ID)),
      y = r := by
  induction rows with
  | nil => simp at hr
  | cons hd tl ih =>
    intro y hy
    rw [KeysUnique, List.pairwise_cons] at hu
    obtain ⟨hhd, htl⟩ := hu
    rw [List.mem_filter] at hy
    obtain ⟨hymem, hykey⟩ := hy
    simp only [Bool.and_eq_true, decide_eq_true_eq] at hykey
    rcases List.mem_cons.1 hr with hrhd | hrtl
    · rcases List.mem_cons.1 hymem with hyhd | hytl
      · rw [hyhd, hrhd]
      · exfalso
        have := hhd y hytl
        rw [← hrhd] at this
        have h2 : sameKey r y = true := (sameKey_iff r y).2 ⟨hykey.1.symm, hykey.2.symm⟩
        rw [h2] at this
        cases this
    · rcases List.mem_cons.1 hymem with hyhd | hytl
      · exfalso
        have := hhd r hrtl
        have h2 : sameKey hd r = true := (sameKey_iff hd r).2 ⟨hyhd ▸ hykey.1, hyhd ▸ hykey.2⟩
        rw [h2] at this
        cases this
      · exact ih htl hrtl y (List.mem_filter.2 ⟨hytl, by simp [hykey]⟩)

/-- Under the primary key constraint the exact query returns the row stored under the key. -/
theorem First_key_of_unique (rows : List ActorInfo) (r : ActorInfo) (hu : KeysUnique rows)
    (hr : r ∈ rows) :
    First (fun x => decide (x.Provider = r.Provider) && decide (x.ID = r.ID)) rows = some r := by
  apply First_of_all_eq _ _ _ (filter_key_of_unique rows r hu hr)
  intro hnil
  have : r ∈ rows.filter (fun x => decide (x.Provider = r.Provider) && decide (x.ID = r.ID)) :=
    List.mem_filter.2 ⟨hr, by simp⟩
  rw [hnil] at this
  cases this

theorem mem_Create (r : ActorInfo) (rows : List ActorInfo) : r ∈ Create r rows := by
  unfold Create
  split
  · rename_i h
    obtain ⟨x, hx, hk⟩ := List.any_eq_true.1 h
    exact List.mem_map.2 ⟨x, hx, by simp [hk]⟩
  · simp

theorem mem_Create_iff_of_ne (r x : ActorInfo) (rows : List ActorInfo)
    (hk : sameKey r x = false) : x ∈ Create r rows ↔ x ∈ rows := by
  have hxr : x ≠ r := by
    intro h; subst h
    have : sameKey x x = true := (sameKey_iff x x).2 ⟨rfl, rfl⟩
    rw [this] at hk; cases hk
  unfold Create
  split
  · constructor
    · intro h
      obtain ⟨y, hy, hyx⟩ := List.mem_map.1 h
      by_cases hky : sameKey r y = true
      · rw [if_pos hky] at hyx; exact absurd hyx.symm hxr
      · rw [if_neg hky] at hyx; rw [← hyx]; exact hy
    · intro h
      exact List.mem_map.2 ⟨x, h, by simp [hk]⟩
  · simp [hxr]

theorem key_eq_of_mem_Create (r x : ActorInfo) (rows : List ActorInfo)
    (hx : x ∈ Create r rows) (hk : sameKey r x = true) : x = r := by
  unfold Create at hx
  split at hx
  · obtain ⟨y, _, hyx⟩ := List.mem_map.1 hx
    by_cases hky : sameKey r y = true
    · rw [if_pos hky] at hyx; exact hyx.symm
    · rw [if_neg hky] at hyx; rw [hyx] at hky; exact absurd hk hky
  · rename_i hany
    rcases List.mem_append.1 hx with h | h
    · exfalso
      apply hany
      exact List.any_eq_true.2 ⟨x, h, hk⟩
    · simpa using h

/-- After the upsert the exact query for the key of the record returns the record. -/
theorem First_key_Create (r : ActorInfo) (rows : List ActorInfo) :
    First (fun x => decide (x.Provider = r.Provider) && decide (x.ID = r.ID)) (Create r rows)
      = some r := by
  apply First_of_all_eq
  · intro y hy
    obtain ⟨hmem, hkey⟩ := List.mem_filter.1 hy
    simp only [Bool.and_eq_true, decide_eq_true_eq] at hkey
    exact key_eq_of_mem_Create r y rows hmem ((sameKey_iff r y).2 ⟨hkey.1.symm, hkey.2.symm⟩)
  · intro hnil
    have : r ∈ (Create r rows).filter
        (fun x => decide (x.Provider = r.Provider) && decide (x.ID = r.ID)) :=
      List.mem_filter.2 ⟨mem_Create r rows, by simp⟩
    rw [hnil] at this
    cases this

theorem sameKey_replace (info a b : ActorInfo) :
    sameKey (if sameKey info a = true then info else a)
        (if sameKey info b = true then info else b) = sameKey a b := by
  by_cases ha : sameKey info a = true <;> by_cases hb : sameKey info b = true
  · rw [if_pos ha, if_pos hb]
    rw [sameKey_iff] at ha hb
    simp [sameKey, ← ha.1, ← ha.2, ← hb.1, ← hb.2]
  · rw [if_pos ha, if_neg hb]
    rw [sameKey_iff] at ha
    simp [sameKey, ha.1, ha.2]
  · rw [if_neg ha, if_pos hb]
    rw [sameKey_iff] at hb
    simp [sameKey, hb.1, hb.2]
  · rw [if_neg ha, if_neg hb]

/-- The upsert keeps the primary key constraint. -/
theorem KeysUnique_Create (r : ActorInfo) (rows : List ActorInfo) (hu : KeysUnique rows) :
    KeysUnique (Create r rows) := by
  unfold Create
  split
  · unfold KeysUnique
    rw [List.pairwise_map]
    refine List.Pairwise.imp ?_ hu
    intro a b hab
    rw [sameKey_replace]
    exact hab
  · rename_i hany
    unfold KeysUnique
    rw [List.pairwise_append]
    refine ⟨hu, List.pairwise_singleton _ _, ?_⟩
    intro a ha b hb
    rw [List.mem_singleton] at hb
    subst hb
    cases hk : sameKey a b with
    | false => rfl
    | true =>
      exfalso
      apply hany
      rw [sameKey_iff] at hk
      exact List.any_eq_true.2 ⟨a, ha, (sameKey_iff b a).2 ⟨hk.1.symm, hk.2.symm⟩⟩

/-! ## The cache-aside lookup -/

theorem getActorInfoFromDB_world (p : ActorProvider) (id : String) (w : World) :
    (Engine.getActorInfoFromDB p id w).2
      = { db := w.db, trace := w.trace ++ [Event.dbFirstByID p.Name id] } := by
  unfold Engine.getActorInfoFromDB
  split <;> rfl

theorem getActorInfoFromDB_of_First (p : ActorProvider) (id : String) (w : World)
    (r : ActorInfo)
    (h : First (fun x => decide (x.Provider = p.Name) && decide (x.ID = id)) w.db = some r) :
    (Engine.getActorInfoFromDB p id w).1 = (r, none) := by
  unfold Engine.getActorInfoFromDB
  rw [h]

theorem getActorInfoFromDB_row (p : ActorProvider) (id : String) (w : World)
    (h : (Engine.getActorInfoFromDB p id w).1.2 = none) :
    (Engine.getActorInfoFromDB p id w).1.1 ∈ w.db
      ∧ (Engine.getActorInfoFromDB p id w).1.1.Provider = p.Name
      ∧ (Engine.getActorInfoFromDB p id w).1.1.ID = id := by
  unfold Engine.getActorInfoFromDB at h ⊢
  cases hf : First (fun x => decide (x.Provider = p.Name) && decide (x.ID = id)) w.db with
  | none => rw [hf] at h; simp at h
  | some row =>
    obtain ⟨hm, hc⟩ := First_mem _ _ _ hf
    simp only [Bool.and_eq_true, decide_eq_true_eq] at hc
    exact ⟨hm, hc.1, hc.2⟩

/-- A lazy lookup on a store that holds a valid record under the key is a cache hit. -/
theorem getActorInfoWithCallback_hit (env : Env) (p : ActorProvider) (id : String)
    (cb : List Event → FetchResult × List Event) (w : World) (r : ActorInfo)
    (hb : p.Name ≠ env.gfriendsName)
    (hfirst : First (fun x => decide (x.Provider = p.Name) && decide (x.ID = id)) w.db = some r)
    (hvalid : env.actorValid r = true) :
    Engine.getActorInfoWithCallback env p id true cb w
      = (Outcome.ret (some r) none,
          { db := w.db, trace := w.trace ++ [Event.dbFirstByID p.Name id] }) := by
  unfold Engine.getActorInfoWithCallback
  rw [if_neg hb]
  simp only [if_true, getActorInfoFromDB_of_First p id w r hfirst, getActorInfoFromDB_world,
    hvalid, and_self, validationCheck]

/-- C1: a cache hit. When the name resolves to a provider that is not the bypass provider,
the raw id normalises to a non-empty id, and the store (which respects its primary key)
holds a valid record under the key of the provider name and that id, the lazy
`GetActorInfoByProviderID` returns that record with a nil error; the trace grows by the
store read alone, so no live fetch ran, and the rows of the store are unchanged. -/
theorem C1_cache_hit (env : Env) (e : Engine) (name id : String) (p : ActorProvider)
    (w : World) (r : ActorInfo)
    (hp : e.GetActorProviderByName env name = Except.ok p)
    (hb : p.Name ≠ env.gfriendsName)
    (hid : p.NormalizeID id ≠ "")
    (huniq : KeysUnique w.db)
    (hr : r ∈ w.db) (hprov : r.Provider = p.Name) (hrid : r.ID = p.NormalizeID id)
    (hvalid : env.actorValid r = true) :
    Engine.GetActorInfoByProviderID env e name id true w
      = (Outcome.ret (some r) none,
          { db := w.db,
            trace := w.trace ++ [Event.dbFirstByID p.Name (p.NormalizeID id)] }) := by
  unfold Engine.GetActorInfoByProviderID
  rw [hp]
  simp only []
  unfold Engine.getActorInfoByProviderID
  simp only [if_neg hid]
  apply getActorInfoWithCallback_hit env p _ _ w r hb _ hvalid
  have := First_key_of_unique w.db r huniq hr
  rw [hprov, hrid] at this
  exact this

/-- C2: the bypass. For the provider whose name is `gfriends.Name`, whatever the lazy flag
and the store hold, the lookup answers with the response of the live `GetActorInfoByID`
passed through the validation check; the trace grows by that one live fetch (no store
read, no write) and the rows of the store are unchanged. This holds for
`getActorInfoWithCallback` with any callback and for both entry points. -/
theorem C2_bypass (env : Env) (p : ActorProvider) (lazy : Bool) (w : World)
    (hb : p.Name = env.gfriendsName) :
    (∀ id cb, Engine.getActorInfoWithCallback env p id lazy cb w
        = (validationCheck env (p.GetActorInfoByID id),
            { db := w.db, trace := w.trace ++ [Event.fetchByID p.Name id] }))
    ∧ (∀ raw, p.NormalizeID raw ≠ "" →
        Engine.getActorInfoByProviderID env p raw lazy w
          = (validationCheck env (p.GetActorInfoByID (p.NormalizeID raw)),
              { db := w.db,
                trace := w.trace ++ [Event.fetchByID p.Name (p.NormalizeID raw)] }))
    ∧ (∀ rawURL id, p.ParseIDFromURL rawURL = (id, none) → id ≠ "" →
        Engine.getActorInfoByProviderURL env p rawURL lazy w
          = (validationCheck env (p.GetActorInfoByID id),
              { db := w.db, trace := w.trace ++ [Event.fetchByID p.Name id] })) := by
  have h1 : ∀ id cb, Engine.getActorInfoWithCallback env p id lazy cb w
        = (validationCheck env (p.GetActorInfoByID id),
            { db := w.db, trace := w.trace ++ [Event.fetchByID p.Name id] }) := by
    intro id cb
    unfold Engine.getActorInfoWithCallback
    rw [if_pos hb]
  refine ⟨h1, ?_, ?_⟩
  · intro raw hraw
    unfold Engine.getActorInfoByProviderID
    simp only [if_neg hraw]
    exact h1 _ _
  · intro rawURL id hparse hid
    unfold Engine.getActorInfoByProviderURL
    rw [hparse]
    simp only [if_neg hid]
    exact h1 _ _

/-- C9: identifier validation is terminal and comes first. A by-ID lookup whose raw id
normalises to the empty string fails with `ErrInvalidID`; a by-URL lookup fails with the
error of `ParseIDFromURL` when there is one and with `ErrInvalidURL` when the parsed id is
empty; in each case no record is returned and the world is untouched: no store read, no
store write and no live fetch enters the trace. -/
theorem C9_identifier_validation (env : Env) (p : ActorProvider) (lazy : Bool) (w : World) :
    (∀ raw, p.NormalizeID raw = "" →
      Engine.getActorInfoByProviderID env p raw lazy w
        = (Outcome.ret none (some Error.ErrInvalidID), w))
    ∧ (∀ rawURL id err, p.ParseIDFromURL rawURL = (id, some err) →
      Engine.getActorInfoByProviderURL env p rawURL lazy w = (Outcome.ret none (some err), w))
    ∧ (∀ rawURL, p.ParseIDFromURL rawURL = ("", none) →
      Engine.getActorInfoByProviderURL env p rawURL lazy w
        = (Outcome.ret none (some Error.ErrInvalidURL), w)) := by
  refine ⟨?_, ?_, ?_⟩
  · intro raw hraw
    unfold Engine.getActorInfoByProviderID
    simp only [hraw, if_true]
  · intro rawURL id err hparse
    unfold Engine.getActorInfoByProviderURL
    rw [hparse]
  · intro rawURL hparse
    unfold Engine.getActorInfoByProviderURL
    rw [hparse]
    simp only [if_true]

theorem validationCheck_success (env : Env) (res : FetchResult) (info : Option ActorInfo)
    (h : validationCheck env res = Outcome.ret info none) :
    ∃ r, info = some r ∧ env.actorValid r = true := by
  obtain ⟨i, e⟩ := res
  cases e with
  | some err => simp [validationCheck] at h
  | none =>
    cases i with
    | none => simp [validationCheck] at h
    | some r =>
      by_cases hv : env.actorValid r = true
      · simp only [validationCheck, hv, if_true, Outcome.ret.injEq, and_true] at h
        exact ⟨r, h.symm, hv⟩
      · simp [validationCheck, hv] at h

/-- Success implies validity: whenever `getActorInfoWithCallback` returns a nil error, the
record it returns is non-nil and valid, for every provider (bypass or not), id, lazy flag,
store and callback. -/
theorem getActorInfoWithCallback_success_valid (env : Env) (p : ActorProvider) (id : String)
    (lazy : Bool) (cb : List Event → FetchResult × List Event) (w : World)
    (info : Option ActorInfo)
    (h : (Engine.getActorInfoWithCallback env p id lazy cb w).1 = Outcome.ret info none) :
    ∃ r, info = some r ∧ env.actorValid r = true := by
  unfold Engine.getActorInfoWithCallback at h
  split at h
  · exact validationCheck_success env _ info h
  · simp only [] at h
    split at h
    · simp only [] at h
      exact validationCheck_success env _ info h
    · split at h
      · cases h
      · exact validationCheck_success env _ info h

/-- The trace that a lookup hands to its callback: the store read comes first when lazy. -/
theorem getActorInfoWithCallback_miss (env : Env) (p : ActorProvider) (id : String)
    (lazy : Bool) (cb : List Event → FetchResult × List Event) (w : World)
    (hb : p.Name ≠ env.gfriendsName)
    (hmiss : lazy = true → ∀ row ∈ w.db, row.Provider = p.Name → row.ID = id →
      env.actorValid row = false) :
    Engine.getActorInfoWithCallback env p id lazy cb w
      = (match autoSave env
            (cb (if lazy then w.trace ++ [Event.dbFirstByID p.Name id] else w.trace)).1
            { db := w.db,
              trace := (cb (if lazy then w.trace ++ [Event.dbFirstByID p.Name id]
                else w.trace)).2 } with
         | none => (Outcome.panicked,
            { db := w.db,
              trace := (cb (if lazy then w.trace ++ [Event.dbFirstByID p.Name id]
                else w.trace)).2 })
         | some w3 => (validationCheck env
            (cb (if lazy then w.trace ++ [Event.dbFirstByID p.Name id] else w.trace)).1, w3)) := by
  unfold Engine.getActorInfoWithCallback
  rw [if_neg hb]
  cases lazy with
  | false => simp
  | true =>
    have hno : ¬ ((Engine.getActorInfoFromDB p id w).1.2 = none
        ∧ env.actorValid (Engine.getActorInfoFromDB p id w).1.1 = true) := by
      rintro ⟨h1, h2⟩
      obtain ⟨hm, hpv, hidv⟩ := getActorInfoFromDB_row p id w h1
      rw [hmiss rfl _ hm hpv hidv] at h2
      cases h2
    simp only [if_true, if_neg hno, getActorInfoFromDB_world]

/-- C3: incomplete metadata. For a provider that is not the bypass provider, when the
lookup falls through to the live fetch (it is not lazy, or the store holds no valid record
under the key) and the fetch returns, without error, a record that fails the validity
predicate, the lookup fails with `ErrIncompleteMetadata` and the rows of the store are
exactly as before; the trace is the one the callback left, with no write. -/
theorem C3_incomplete_metadata (env : Env) (p : ActorProvider) (id : String) (lazy : Bool)
    (cb : List Event → FetchResult × List Event) (w : World) (r : ActorInfo)
    (hb : p.Name ≠ env.gfriendsName)
    (hmiss : lazy = true → ∀ row ∈ w.db, row.Provider = p.Name → row.ID = id →
      env.actorValid row = false)
    (hfetch : ∀ tr, (cb tr).1 = (some r, none))
    (hinvalid : env.actorValid r = false) :
    Engine.getActorInfoWithCallback env p id lazy cb w
      = (Outcome.ret (some r) (some Error.ErrIncompleteMetadata),
          { db := w.db,
            trace := (cb (if lazy then w.trace ++ [Event.dbFirstByID p.Name id]
              else w.trace)).2 }) := by
  rw [getActorInfoWithCallback_miss env p id lazy cb w hb hmiss, hfetch]
  simp [autoSave, validationCheck, hinvalid]

/-- C4 (amended): write-back round trip. For a provider that is not the bypass provider,
when a lookup for `id` falls through to a live fetch that returns a valid record whose own
`Provider` and `ID` fields are the name of the provider and `id`, the lookup returns the
record and upserts it: the record is in the store, it is the only row with its key, rows
with other keys are as before, and the primary key constraint is kept. A lazy lookup for the same provider and id that
follows at once returns the record after the store read alone: no live fetch, no write. -/
theorem C4_write_back_round_trip (env : Env) (p : ActorProvider) (id : String) (lazy : Bool)
    (cb cb2 : List Event → FetchResult × List Event) (w : World) (r : ActorInfo)
    (hb : p.Name ≠ env.gfriendsName)
    (hmiss : lazy = true → ∀ row ∈ w.db, row.Provider = p.Name → row.ID = id →
      env.actorValid row = false)
    (hfetch : ∀ tr, (cb tr).1 = (some r, none))
    (hvalid : env.actorValid r = true)
    (hprov : r.Provider = p.Name) (hrid : r.ID = id) :
    (Engine.getActorInfoWithCallback env p id lazy cb w).1 = Outcome.ret (some r) none
    ∧ r ∈ (Engine.getActorInfoWithCallback env p id lazy cb w).2.db
    ∧ (∀ x ∈ (Engine.getActorInfoWithCallback env p id lazy cb w).2.db,
        sameKey r x = true → x = r)
    ∧ (∀ x, sameKey r x = false →
        (x ∈ (Engine.getActorInfoWithCallback env p id lazy cb w).2.db ↔ x ∈ w.db))
    ∧ (KeysUnique w.db → KeysUnique (Engine.getActorInfoWithCallback env p id lazy cb w).2.db)
    ∧ Engine.getActorInfoWithCallback env p id true cb2
          (Engine.getActorInfoWithCallback env p id lazy cb w).2
        = (Outcome.ret (some r) none,
            { db := (Engine.getActorInfoWithCallback env p id lazy cb w).2.db,
              trace := (Engine.getActorInfoWithCallback env p id lazy cb w).2.trace
                ++ [Event.dbFirstByID p.Name id] }) := by
  have hfirst : Engine.getActorInfoWithCallback env p id lazy cb w
      = (Outcome.ret (some r) none,
          { db := Create r w.db,
            trace := (cb (if lazy then w.trace ++ [Event.dbFirstByID p.Name id]
              else w.trace)).2 ++ [Event.dbCreate r] }) := by
    rw [getActorInfoWithCallback_miss env p id lazy cb w hb hmiss, hfetch]
    simp [autoSave, validationCheck, hvalid]
  rw [hfirst]
  refine ⟨rfl, mem_Create r w.db, ?_, ?_, ?_, ?_⟩
  · intro x hx hk
    exact key_eq_of_mem_Create r x w.db hx hk
  · intro x hk
    exact mem_Create_iff_of_ne r x w.db hk
  · intro hu
    exact KeysUnique_Create r w.db hu
  · apply getActorInfoWithCallback_hit env p id cb2 _ r hb _ hvalid
    have := First_key_Create r w.db
    rw [hprov, hrid] at this
    exact this

/-! ## The stable sort and the fan-out -/

theorem sink_spec {α : Type} (less : α → α → Option Bool) (prio : α → Option Int)
    (hless : ∀ a b pa pb, prio a = some pa → prio b = some pb →
      less a b = some (decide (pa > pb)))
    (x : α) (rev : List α)
    (hx : (prio x).isSome = true) (hrev : ∀ y ∈ rev, (prio y).isSome = true)
    (hsorted : rev.Pairwise (fun a b => (prio a).getD 0 ≤ (prio b).getD 0)) :
    ∃ l, sink less x rev = some l ∧ l.Perm (x :: rev)
      ∧ (∀ k, l.filter (fun r => decide (prio r = some k))
            = (x :: rev).filter (fun r => decide (prio r = some k)))
      ∧ l.Pairwise (fun a b => (prio a).getD 0 ≤ (prio b).getD 0) := by
  induction rev with
  | nil =>
    exact ⟨[x], rfl, List.Perm.refl _, fun _ => rfl, List.pairwise_singleton _ _⟩
  | cons y ys ih =>
    obtain ⟨px, hpx⟩ := Option.isSome_iff_exists.1 hx
    obtain ⟨py, hpy⟩ := Option.isSome_iff_exists.1 (hrev y (List.mem_cons_self _ _))
    rw [List.pairwise_cons] at hsorted
    obtain ⟨hy, hys⟩ := hsorted
    have hl := hless x y px py hpx hpy
    by_cases hgt : px > py
    · obtain ⟨l1, hs, hperm, hfilt, hpw⟩ :=
        ih (fun z hz => hrev z (List.mem_cons_of_mem _ hz)) hys
      refine ⟨y :: l1, ?_, ?_, ?_, ?_⟩
      · simp only [sink, hl, hgt, decide_True, hs, Option.map_some']
      · exact (List.Perm.cons y hperm).trans (List.Perm.swap x y ys)
      · intro k
        have hk : ¬ (prio x = some k ∧ prio y = some k) := by
          rintro ⟨h1, h2⟩
          rw [hpx] at h1; rw [hpy] at h2
          simp only [Option.some.injEq] at h1 h2
          omega
        have h1 := hfilt k
        by_cases hyk : prio y = some k
        · have hxk : ¬ prio x = some k := fun h => hk ⟨h, hyk⟩
          simp only [List.filter_cons, hyk, hxk, decide_True, decide_False, if_true,
            Bool.false_eq_true, if_false] at h1 ⊢
          rw [h1]
        · simp only [List.filter_cons, hyk, decide_False, Bool.false_eq_true, if_false]
            at h1 ⊢
          rw [h1]
      · rw [List.pairwise_cons]
        refine ⟨?_, hpw⟩
        intro b hb
        rcases List.mem_cons.1 (hperm.mem_iff.1 hb) with hbx | hbys
        · rw [hbx, hpx, hpy]
          simp only [Option.getD_some]
          omega
        · exact hy b hbys
    · refine ⟨x :: y :: ys, ?_, List.Perm.refl _, fun _ => rfl, ?_⟩
      · simp only [sink, hl, hgt, decide_False]
      · rw [List.pairwise_cons]
        refine ⟨?_, List.pairwise_cons.2 ⟨hy, hys⟩⟩
        intro b hb
        have hxy : (prio x).getD 0 ≤ (prio y).getD 0 := by
          rw [hpx, hpy]
          simp only [Option.getD_some]
          omega
        rcases List.mem_cons.1 hb with hby | hbys
        · rw [hby]; exact hxy
        · exact le_trans hxy (hy b hbys)

theorem insertionSort_spec {α : Type} (less : α → α → Option Bool)
    (prio : α → Option Int)
    (hless : ∀ a b pa pb, prio a = some pa → prio b = some pb →
      less a b = some (decide (pa > pb)))
    (xs rev : List α)
    (hxs : ∀ y ∈ xs, (prio y).isSome = true) (hrev : ∀ y ∈ rev, (prio y).isSome = true)
    (hsorted : rev.Pairwise (fun a b => (prio a).getD 0 ≤ (prio b).getD 0)) :
    ∃ out, insertionSort less rev xs = some out ∧ out.Perm (rev.reverse ++ xs)
      ∧ (∀ k, out.filter (fun r => decide (prio r = some k))
            = (rev.reverse ++ xs).filter (fun r => decide (prio r = some k)))
      ∧ out.Pairwise (fun a b => (prio b).getD 0 ≤ (prio a).getD 0) := by
  induction xs generalizing rev with
  | nil =>
    refine ⟨rev.reverse, rfl, by simp, by simp, ?_⟩
    rw [List.pairwise_reverse]
    exact hsorted
  | cons x xs ih =>
    obtain ⟨rev1, hs, hperm, hfilt, hpw⟩ :=
      sink_spec less prio hless x rev (hxs x (List.mem_cons_self _ _)) hrev hsorted
    have hrev1 : ∀ y ∈ rev1, (prio y).isSome = true := by
      intro y hy
      rcases List.mem_cons.1 (hperm.mem_iff.1 hy) with h | h
      · rw [h]; exact hxs x (List.mem_cons_self _ _)
      · exact hrev y h
    obtain ⟨out, ho, hoperm, hofilt, hopw⟩ :=
      ih rev1 (fun y hy => hxs y (List.mem_cons_of_mem _ hy)) hrev1 hpw
    refine ⟨out, ?_, ?_, ?_, hopw⟩
    · simp only [insertionSort, hs, ho]
    · refine hoperm.trans ?_
      have h1 : (rev1.reverse).Perm (rev.reverse ++ [x]) := by
        refine (List.reverse_perm rev1).trans (hperm.trans ?_)
        refine (List.Perm.cons x (List.reverse_perm rev).symm).trans ?_
        exact (List.perm_append_singleton x rev.reverse).symm
      have h2 := List.Perm.append_right xs h1
      simpa using h2
    · intro k
      rw [hofilt k, List.filter_append, List.filter_reverse, hfilt k, List.filter_append,
        List.filter_reverse]
      simp [List.filter_cons]
      split <;> simp

theorem Goroutine.step_of_safe (env : Env) (db : List ActorInfo) (keyword : String)
    (t : Goroutine) (hs : t.safe env db keyword) :
    ∃ t1 out, t.step env db keyword = some (t1, out) ∧ t1.safe env db keyword
      ∧ t.pending env db keyword = out ++ t1.pending env db keyword := by
  cases t with
  | start p =>
    simp only [Goroutine.safe] at hs
    obtain ⟨res, hres⟩ := Option.isSome_iff_exists.1 hs
    obtain ⟨rs, err⟩ := res
    cases err with
    | none =>
      exact ⟨Goroutine.loop rs, [], by simp [Goroutine.step, hres], trivial,
        by simp [Goroutine.pending, validResultsOf, hres]⟩
    | some err =>
      exact ⟨Goroutine.loop [], [], by simp [Goroutine.step, hres], trivial,
        by simp [Goroutine.pending, validResultsOf, hres]⟩
  | loop rs =>
    cases rs with
    | nil => exact ⟨Goroutine.loop [], [], rfl, trivial, rfl⟩
    | cons r rs =>
      refine ⟨Goroutine.loop rs, if env.resultValid r then [r] else [], rfl, trivial, ?_⟩
      by_cases hv : env.resultValid r = true
      · simp [Goroutine.pending, List.filter_cons, hv]
      · simp [Goroutine.pending, List.filter_cons, hv]

theorem Goroutine.finish_of_safe (env : Env) (db : List ActorInfo) (keyword : String)
    (t : Goroutine) (hs : t.safe env db keyword) :
    t.finish env db keyword = some (t.pending env db keyword) := by
  cases t with
  | start p =>
    simp only [Goroutine.safe] at hs
    obtain ⟨res, hres⟩ := Option.isSome_iff_exists.1 hs
    obtain ⟨rs, err⟩ := res
    cases err <;> simp [Goroutine.finish, Goroutine.pending, validResultsOf, hres]
  | loop rs => rfl

theorem stepAt_of_safe (env : Env) (db : List ActorInfo) (keyword : String) (i : Nat)
    (tasks : List Goroutine) (hs : ∀ t ∈ tasks, t.safe env db keyword) :
    ∃ tasks1 out, stepAt env db keyword i tasks = some (tasks1, out)
      ∧ (∀ t ∈ tasks1, t.safe env db keyword)
      ∧ (tasks.flatMap (Goroutine.pending env db keyword)).Perm
          (out ++ tasks1.flatMap (Goroutine.pending env db keyword)) := by
  induction tasks generalizing i with
  | nil => exact ⟨[], [], by cases i <;> rfl, hs, List.Perm.refl _⟩
  | cons t ts ih =>
    cases i with
    | zero =>
      obtain ⟨t1, out, hstep, hsafe, hpend⟩ :=
        Goroutine.step_of_safe env db keyword t (hs t (List.mem_cons_self _ _))
      refine ⟨t1 :: ts, out, by simp [stepAt, hstep], ?_, ?_⟩
      · intro u hu
        rcases List.mem_cons.1 hu with h | h
        · rw [h]; exact hsafe
        · exact hs u (List.mem_cons_of_mem _ h)
      · simp only [List.flatMap_cons, hpend, List.append_assoc]
        exact List.Perm.refl _
    | succ i =>
      obtain ⟨ts1, out, hstep, hsafe, hperm⟩ :=
        ih i (fun u hu => hs u (List.mem_cons_of_mem _ hu))
      refine ⟨t :: ts1, out, by simp [stepAt, hstep], ?_, ?_⟩
      · intro u hu
        rcases List.mem_cons.1 hu with h | h
        · rw [h]; exact hs t (List.mem_cons_self _ _)
        · exact hsafe u h
      · simp only [List.flatMap_cons]
        refine (List.Perm.append_left _ hperm).trans ?_
        rw [← List.append_assoc, ← List.append_assoc]
        exact List.Perm.append_right _ List.perm_append_comm

theorem drain_of_safe (env : Env) (db : List ActorInfo) (keyword : String)
    (tasks : List Goroutine) (results : List ActorSearchResult)
    (hs : ∀ t ∈ tasks, t.safe env db keyword) :
    drain env db keyword tasks results
      = some (results ++ tasks.flatMap (Goroutine.pending env db keyword)) := by
  induction tasks generalizing results with
  | nil => simp [drain]
  | cons t ts ih =>
    simp only [drain, Goroutine.finish_of_safe env db keyword t (hs t (List.mem_cons_self _ _))]
    rw [ih _ (fun u hu => hs u (List.mem_cons_of_mem _ hu))]
    simp [List.flatMap_cons]

/-- Whatever the schedule, goroutines that do not panic leave in the shared slice a
permutation of what was there and what they had yet to append. -/
theorem collect_of_safe (env : Env) (db : List ActorInfo) (keyword : String)
    (sched : List Nat) (tasks : List Goroutine) (results : List ActorSearchResult)
    (hs : ∀ t ∈ tasks, t.safe env db keyword) :
    ∃ acc, collect env db keyword sched tasks results = some acc
      ∧ acc.Perm (results ++ tasks.flatMap (Goroutine.pending env db keyword)) := by
  induction sched generalizing tasks results with
  | nil => exact ⟨_, drain_of_safe env db keyword tasks results hs, List.Perm.refl _⟩
  | cons i sched ih =>
    obtain ⟨tasks1, out, hstep, hsafe, hperm⟩ := stepAt_of_safe env db keyword i tasks hs
    obtain ⟨acc, hacc, haccperm⟩ := ih tasks1 (results ++ out) hsafe
    refine ⟨acc, by simp [collect, hstep, hacc], haccperm.trans ?_⟩
    rw [List.append_assoc]
    exact List.Perm.append_left _ hperm.symm

theorem searchActor_isSome (env : Env) (db : List ActorInfo) (keyword : String)
    (p : ActorProvider) (lazy : Bool)
    (h : p.Name = env.gfriendsName → p.SearchActor.isSome = true) :
    (Engine.searchActor env db keyword p lazy).isSome = true := by
  unfold Engine.searchActor
  by_cases hb : p.Name = env.gfriendsName
  · rw [if_pos hb]
    obtain ⟨s, hs⟩ := Option.isSome_iff_exists.1 (h hb)
    rw [hs]; rfl
  · rw [if_neg hb]
    cases p.SearchActor with
    | none => rfl
    | some s =>
      simp only []
      split
      · split <;> rfl
      · rfl

theorem lessByPriority_eq (env : Env) (e : Engine) (a b : ActorSearchResult) (pa pb : Int)
    (ha : e.priorityOf env a = some pa) (hb : e.priorityOf env b = some pb) :
    e.lessByPriority env a b = some (decide (pa > pb)) := by
  simp [Engine.lessByPriority, ha, hb]

theorem priorityOf_of_resolved (env : Env) (e : Engine) (r : ActorSearchResult)
    (p : ActorProvider) (h : e.GetActorProviderByName env r.Provider = Except.ok p) :
    e.priorityOf env r = some p.Priority := by
  simp [Engine.priorityOf, Engine.MustGetActorProviderByName, h]

theorem resolved_of_IsActorProvider (env : Env) (e : Engine) (name : String)
    (h : e.IsActorProvider env name = true) :
    ∃ p, e.GetActorProviderByName env name = Except.ok p := by
  unfold Engine.IsActorProvider at h
  obtain ⟨p, hp⟩ := Option.isSome_iff_exists.1 h
  exact ⟨p, by simp [Engine.GetActorProviderByName, hp]⟩

theorem hasPriority_eq (env : Env) (e : Engine) (k : Int) (r : ActorSearchResult) :
    hasPriority env e k r = decide (e.priorityOf env r = some k) := by
  unfold hasPriority
  cases h : e.GetActorProviderByName env r.Provider with
  | error err => simp [Engine.priorityOf, Engine.MustGetActorProviderByName, h]
  | ok p => simp [priorityOf_of_resolved env e r p h]

/-- C5: search ordering. When the fan-out has left `acc` in the shared slice and the
provider tag of every result in `acc` is a registered provider name, `SearchActorAll`
returns, with a nil error, the stable sort of `acc` on descending provider priority: the
returned list is a permutation of `acc`; whenever a result comes before another, the
`Priority()` of the provider its tag resolves to is at least that of the other, so every
result of a higher-priority provider precedes every result of a lower-priority provider;
and the results whose providers have one and the same priority keep the order they have in
`acc`. -/
theorem C5_search_ordering (env : Env) (e : Engine) (db : List ActorInfo) (keyword : String)
    (sched : List Nat) (acc : List ActorSearchResult)
    (hacc : e.collected env db keyword sched = some acc)
    (hres : ∀ r ∈ acc, e.IsActorProvider env r.Provider = true) :
    ∃ out, e.SearchActorAll env db keyword sched = some (out, none)
      ∧ out.Perm acc
      ∧ out.Pairwise (fun a b => ∀ pa pb : ActorProvider,
          e.GetActorProviderByName env a.Provider = Except.ok pa →
          e.GetActorProviderByName env b.Provider = Except.ok pb →
          pb.Priority ≤ pa.Priority)
      ∧ (∀ k, out.filter (hasPriority env e k) = acc.filter (hasPriority env e k)) := by
  have hsome : ∀ r ∈ acc, (e.priorityOf env r).isSome = true := by
    intro r hr
    obtain ⟨p, hp⟩ := resolved_of_IsActorProvider env e r.Provider (hres r hr)
    rw [priorityOf_of_resolved env e r p hp]
    rfl
  obtain ⟨out, hsort, hperm, hfilt, hpw⟩ :=
    insertionSort_spec (e.lessByPriority env) (e.priorityOf env) (lessByPriority_eq env e)
      acc [] hsome (by simp) List.Pairwise.nil
  refine ⟨out, ?_, by simpa using hperm, ?_, ?_⟩
  · unfold Engine.SearchActorAll
    rw [hacc]
    simp only [SliceStable, hsort]
  · refine hpw.imp ?_
    intro a b hab pa pb ha hb
    rw [priorityOf_of_resolved env e a pa ha, priorityOf_of_resolved env e b pb hb] at hab
    simpa using hab
  · intro k
    have hfun : hasPriority env e k = fun r => decide (e.priorityOf env r = some k) :=
      funext (hasPriority_eq env e k)
    rw [hfun]
    simpa using hfilt k

/-- C6 (amended): search isolation. When the bypass provider, if registered, implements
search, and the provider tag of every valid result of every successful query resolves in
the registry, then under every schedule `SearchActorAll` returns with a nil error a list
that holds, as a multiset, exactly the valid results of the queries that succeeded. A
provider without the search capability and a provider whose query fails contribute
nothing, whatever the other providers do. -/
theorem C6_search_isolation (env : Env) (e : Engine) (db : List ActorInfo) (keyword : String)
    (sched : List Nat)
    (hcap : ∀ kv ∈ e.actorProviders, kv.2.Name = env.gfriendsName →
      kv.2.SearchActor.isSome = true)
    (hres : ∀ kv ∈ e.actorProviders, ∀ r ∈ validResultsOf env db keyword kv.2,
      (e.priorityOf env r).isSome = true) :
    (∃ out, e.SearchActorAll env db keyword sched = some (out, none)
      ∧ out.Perm (e.actorProviders.flatMap (fun kv => validResultsOf env db keyword kv.2)))
    ∧ (∀ p : ActorProvider, p.Name ≠ env.gfriendsName → p.SearchActor = none →
        validResultsOf env db keyword p = [])
    ∧ (∀ (p : ActorProvider) rs err, Engine.searchActor env db keyword p true = some (rs, some err) →
        validResultsOf env db keyword p = []) := by
  refine ⟨?_, ?_, ?_⟩
  · have hsafe : ∀ t ∈ e.actorProviders.map (fun kv => Goroutine.start kv.2),
        t.safe env db keyword := by
      intro t ht
      obtain ⟨kv, hkv, rfl⟩ := List.mem_map.1 ht
      exact searchActor_isSome env db keyword kv.2 true (hcap kv hkv)
    obtain ⟨acc, hacc, haccperm⟩ := collect_of_safe env db keyword sched _ [] hsafe
    have hflat : (e.actorProviders.map (fun kv => Goroutine.start kv.2)).flatMap
        (Goroutine.pending env db keyword)
        = e.actorProviders.flatMap (fun kv => validResultsOf env db keyword kv.2) := by
      rw [List.flatMap_map]
      rfl
    rw [List.nil_append, hflat] at haccperm
    have hres2 : ∀ r ∈ acc, (e.priorityOf env r).isSome = true := by
      intro r hr
      obtain ⟨kv, hkv, hrkv⟩ := List.mem_flatMap.1 (haccperm.mem_iff.1 hr)
      exact hres kv hkv r hrkv
    obtain ⟨out, hsort, hperm, _, _⟩ :=
      insertionSort_spec (e.lessByPriority env) (e.priorityOf env) (lessByPriority_eq env e)
        acc [] hres2 (by simp) List.Pairwise.nil
    refine ⟨out, ?_, (by simpa using hperm : out.Perm acc).trans haccperm⟩
    unfold Engine.SearchActorAll Engine.collected
    rw [hacc]
    simp only [SliceStable, hsort]
  · intro p hb hnone
    simp [validResultsOf, Engine.searchActor, hb, hnone]
  · intro p rs err h
    simp [validResultsOf, h]

/-! ## The properties at concrete inputs -/

/-- Witness for C1: provider `A` is resolved by the name `a`, the raw id normalises to
`x1`, and the store holds the record of `A` under `x1`. -/
theorem C1_cache_hit_witness :
    Engine.GetActorInfoByProviderID sampleEnv sampleEngine "a" " x 1" true sampleWorld
      = (Outcome.ret (some (sampleRecord "A" "x1")) none,
          { db := [sampleRecord "A" "x0", sampleRecord "A" "x1"],
            trace := [Event.dbFirstByID "A" "x1"] }) :=
  C1_cache_hit sampleEnv sampleEngine "a" " x 1" provA sampleWorld (sampleRecord "A" "x1")
    rfl (by decide) (by decide) (by unfold KeysUnique; decide) (by decide) rfl (by decide) rfl

/-- Witness for C2: a lazy by-ID lookup at the bypass provider, with a valid record under
the key in the store: the answer is the fetched record, and the stored one stays. -/
theorem C2_bypass_witness :
    Engine.getActorInfoByProviderID sampleEnv provG "x1" true staleWorld
      = (Outcome.ret (some (sampleRecord "GFriends" "x1")) none,
          { db := [{ sampleRecord "GFriends" "x1" with Summary := "stale" }],
            trace := [Event.fetchByID "GFriends" "x1"] }) :=
  (C2_bypass sampleEnv provG true staleWorld rfl).2.1 "x1" (by decide)

/-- Witness for C3: the fetch of provider `B` returns a record without a name. -/
theorem C3_incomplete_metadata_witness :
    Engine.getActorInfoWithCallback sampleEnv provB "x1" true (byIDCallback provB "x1")
        sampleWorld
      = (Outcome.ret (some { sampleRecord "B" "x1" with Name := "" })
            (some Error.ErrIncompleteMetadata),
          { db := [sampleRecord "A" "x0", sampleRecord "A" "x1"],
            trace := [Event.dbFirstByID "B" "x1", Event.fetchByID "B" "x1"] }) :=
  C3_incomplete_metadata sampleEnv provB "x1" true (byIDCallback provB "x1") sampleWorld
    { sampleRecord "B" "x1" with Name := "" } (by decide) (fun _ => by decide) (fun _ => rfl)
    (by decide)

/-- Counterexample to C4 as stated: provider `U` answers the lookup of `abc` with a valid
record filed under `ABC`. The first lookup returns it and upserts it, and the lazy lookup of
`abc` that follows misses the store and fetches again. -/
theorem C4_counterexample :
    provU.Name ≠ sampleEnv.gfriendsName
    ∧ (byIDCallback provU "abc" []).1 = (some (sampleRecord "U" "ABC"), none)
    ∧ sampleEnv.actorValid (sampleRecord "U" "ABC") = true
    ∧ Engine.getActorInfoWithCallback sampleEnv provU "abc" false (byIDCallback provU "abc")
          emptyWorld
        = (Outcome.ret (some (sampleRecord "U" "ABC")) none,
            { db := [sampleRecord "U" "ABC"],
              trace := [Event.fetchByID "U" "abc", Event.dbCreate (sampleRecord "U" "ABC")] })
    ∧ Engine.getActorInfoWithCallback sampleEnv provU "abc" true (byIDCallback provU "abc")
          { db := [sampleRecord "U" "ABC"],
            trace := [Event.fetchByID "U" "abc", Event.dbCreate (sampleRecord "U" "ABC")] }
        = (Outcome.ret (some (sampleRecord "U" "ABC")) none,
            { db := [sampleRecord "U" "ABC"],
              trace := [Event.fetchByID "U" "abc", Event.dbCreate (sampleRecord "U" "ABC"),
                Event.dbFirstByID "U" "abc", Event.fetchByID "U" "abc",
                Event.dbCreate (sampleRecord "U" "ABC")] }) := by
  decide

/-- Witness for C4 (amended): provider `A` files its record under the requested id. -/
theorem C4_write_back_round_trip_witness :
    Engine.getActorInfoWithCallback sampleEnv provA "x9" true (byIDCallback provA "x9")
        (Engine.getActorInfoWithCallback sampleEnv provA "x9" true (byIDCallback provA "x9")
          sampleWorld).2
      = (Outcome.ret (some (sampleRecord "A" "x9")) none,
          { db := [sampleRecord "A" "x0", sampleRecord "A" "x1", sampleRecord "A" "x9"],
            trace := [Event.dbFirstByID "A" "x9", Event.fetchByID "A" "x9",
              Event.dbCreate (sampleRecord "A" "x9"), Event.dbFirstByID "A" "x9"] }) :=
  (C4_write_back_round_trip sampleEnv provA "x9" true (byIDCallback provA "x9")
    (byIDCallback provA "x9") sampleWorld (sampleRecord "A" "x9") (by decide)
    (fun _ => by decide) (fun _ => rfl) (by decide) rfl rfl).2.2.2.2.2

/-- Witness for C5: the sample engine under a schedule that interleaves `A`, `B` and the
bypass provider. The slice collected is `a1, g1, b1, b2, a3`; the list returned is
`a1, a3, g1, b1, b2`, whose providers have the priorities 10, 10, 7, 5, 5. -/
theorem C5_search_ordering_witness :
    sampleEngine.SearchActorAll sampleEnv [] "k" [1, 0, 1, 5, 5, 0, 1]
        = some (sampleSorted, none)
    ∧ sampleSorted.map (fun r => (sampleEngine.MustGetActorProviderByName sampleEnv
          r.Provider).map (fun p => p.Priority))
        = [some 10, some 10, some 7, some 5, some 5]
    ∧ sampleSorted.Perm sampleCollected
    ∧ sampleSorted.Pairwise (fun a b => ∀ pa pb : ActorProvider,
        sampleEngine.GetActorProviderByName sampleEnv a.Provider = Except.ok pa →
        sampleEngine.GetActorProviderByName sampleEnv b.Provider = Except.ok pb →
        pb.Priority ≤ pa.Priority)
    ∧ (∀ k, sampleSorted.filter (hasPriority sampleEnv sampleEngine k)
        = sampleCollected.filter (hasPriority sampleEnv sampleEngine k)) := by
  obtain ⟨out, hout, hperm, hpw, hst⟩ :=
    C5_search_ordering sampleEnv sampleEngine [] "k" [1, 0, 1, 5, 5, 0, 1] sampleCollected
      (by decide) (by decide)
  have hc : sampleEngine.SearchActorAll sampleEnv [] "k" [1, 0, 1, 5, 5, 0, 1]
      = some (sampleSorted, none) := by decide
  have heq : out = sampleSorted := by
    rw [hc] at hout
    simp only [Option.some.injEq, Prod.mk.injEq, and_true] at hout
    exact hout.symm
  rw [heq] at hperm hpw hst
  exact ⟨hc, by decide, hperm, hpw, hst⟩

/-- Counterexample to C6 as stated: a provider that returns two valid results under a tag
that is not registered makes the comparison of the sort panic, and a provider of the bypass
name without the search capability makes its goroutine panic. -/
theorem C6_counterexample :
    strayEngine.SearchActorAll sampleEnv [] "k" [] = none
    ∧ mutedEngine.SearchActorAll sampleEnv [] "k" [] = none := by
  decide

/-- Witness for C6 (amended): the sample engine, whose provider `D` fails and whose
providers `A2` and `C` cannot search. -/
theorem C6_search_isolation_witness :
    ∃ out, sampleEngine.SearchActorAll sampleEnv [] "k" [1, 0, 1, 5, 5, 0, 1] = some (out, none)
      ∧ out.Perm (sampleEngine.actorProviders.flatMap
          (fun kv => validResultsOf sampleEnv [] "k" kv.2)) :=
  (C6_search_isolation sampleEnv sampleEngine [] "k" [1, 0, 1, 5, 5, 0, 1]
    (by decide) (by decide)).1

/-- Witness for C7: on the host `a.example` the path `/stars` selects `A2`, and a path
under which nothing is registered fails. -/
theorem C7_resolve_by_url_witness :
    sampleEngine.GetActorProviderByURL sampleEnv "https://a.example/stars/x1" = Except.ok provA2
    ∧ sampleEngine.GetActorProviderByURL sampleEnv "https://a.example/movies/x1"
        = Except.error (Error.actorProviderNotFound "https://a.example/movies/x1") :=
  ⟨(C7_resolve_by_url sampleEnv _ _ "https://a.example/stars/x1"
      { Hostname := "a.example", Path := "/stars/x1" } rfl).1,
    (C7_resolve_by_url sampleEnv _ _ "https://a.example/movies/x1"
      { Hostname := "a.example", Path := "/movies/x1" } rfl).2.2.1 (by decide)⟩

/-- Witness for C9: at provider `A` a blank raw id, a URL that does not parse and a URL
without an id. -/
theorem C9_identifier_validation_witness :
    Engine.getActorInfoByProviderID sampleEnv provA "  " true sampleWorld
        = (Outcome.ret none (some Error.ErrInvalidID), sampleWorld)
    ∧ Engine.getActorInfoByProviderURL sampleEnv provA "https://a.example/actors/broken" true
          sampleWorld
        = (Outcome.ret none (some (Error.other "broken url")), sampleWorld)
    ∧ Engine.getActorInfoByProviderURL sampleEnv provA "https://a.example/actors/" true
          sampleWorld
        = (Outcome.ret none (some Error.ErrInvalidURL), sampleWorld) :=
  ⟨(C9_identifier_validation sampleEnv provA true sampleWorld).1 "  " (by decide),
   (C9_identifier_validation sampleEnv provA true sampleWorld).2.1
      "https://a.example/actors/broken" "" (Error.other "broken url") (by decide),
   (C9_identifier_validation sampleEnv provA true sampleWorld).2.2
      "https://a.example/actors/" (by decide)⟩

/-- C10, at the failing input: a provider that is not the bypass provider and whose fetch
returns a nil record with a nil error. The delayed auto-save calls `Valid` on the nil
record, so the lookup panics instead of failing with `ErrIncompleteMetadata`; the same
response at the bypass provider, where no auto-save is deferred, yields
`ErrIncompleteMetadata`. -/
theorem C10_nil_fetch_panics :
    Engine.getActorInfoByProviderID sampleEnv provN "x" false emptyWorld
        = (Outcome.panicked, { db := [], trace := [Event.fetchByID "N" "x"] })
    ∧ Engine.getActorInfoByProviderID sampleEnv provGN "x" false emptyWorld
        = (Outcome.ret none (some Error.ErrIncompleteMetadata),
            { db := [], trace := [Event.fetchByID "GFriends" "x"] }) := by
  decide

end Javtube
